import Mathlib

/-!
Shallow embedding of the provider-referral graph extraction pipeline in
src/teaming/extract_providers_to_graphml.py.

The relational layer is modelled by explicit row lists: the referral table is a
list of ReferralRow, the detail table a list of DetailRow, and the caller
predicate (the SQL where clause) a boolean predicate on detail rows.  The
run-scoped staging table npi_to_export_to_graph is a list of (npi, node_type)
pairs.  Python dictionaries are association lists with unique keys, insertion
order, and in-place overwrite on re-assignment.  SQL `distinct`/`union` is
modelled with List.dedup; enumeration orders that SQL leaves unspecified are
fixed by the model but never relied on for set-level statements.

The networkx DiGraph is a PGraph: a node list (id, attributes) plus an
adjacency list (source, successor list), with add_edge overwriting the data of
an existing (u, v) edge, as networkx does for the fixed weight/edge_type keys.
The directed and undirected modes both bind a graph object; the model does not
distinguish their edge semantics (every claim below runs the directed mode,
except for the binding claim which only concerns whether a graph is bound).
-/

set_option maxRecDepth 8000

/-- Attribute mapping of a graph node, mirroring a Python dict keyed by
column name. -/
abbrev AttrMap := List (String × String)

/-- Lookup in an association list (Python d[k] where present, else None). -/
def lookupA {α : Type} (k : String) : List (String × α) → Option α
  | [] => none
  | p :: ps => if p.1 = k then some p.2 else lookupA k ps

/-- Python dict assignment d[k] = v: replace the first binding of k in
place, or append a new binding. -/
def upsertA {α : Type} : List (String × α) → String → α → List (String × α)
  | [], k, v => [(k, v)]
  | p :: ps, k, v => if p.1 = k then (k, v) :: ps else p :: upsertA ps k v

/-- Concatenation of the images of a list under a list-valued function. -/
def joinMap {α β : Type} (f : α → List β) : List α → List β
  | [] => []
  | a :: l => f a ++ joinMap f l

/-- Occurrence count of a string in a list. -/
def countS (c : String) : List String → Nat
  | [] => 0
  | x :: xs => (if x = c then 1 else 0) + countS c xs

/-- Loop body of row_to_dictionary (source lines 56-64): for each column in
order, if its value is non-null, assign it into the dictionary. -/
def row_to_dictionary_loop (row_dict : AttrMap) : List (String × Option String) → AttrMap
  | [] => row_dict
  | p :: ps =>
      match p.2 with
      | some v => row_to_dictionary_loop (upsertA row_dict p.1 v) ps
      | none => row_to_dictionary_loop row_dict ps

/-- row_to_dictionary (source lines 56-64): convert a cursor row, given as a
list of (column name, nullable value) pairs, to a dictionary holding exactly
the non-null columns. -/
def row_to_dictionary (cols : List (String × Option String)) : AttrMap :=
  row_to_dictionary_loop [] cols

/-- Per-row attribute computation of add_nodes_to_graph (source lines 71-77):
the row dictionary, then a synthetic Label copied from the label column when
that column is present, then the node_type tier tag. -/
def add_node_attributes (cols : List (String × Option String)) (node_type : String)
    (label_name : Option String) : AttrMap :=
  let attributes := row_to_dictionary cols
  let attributes :=
    match label_name with
    | some ln =>
        match lookupA ln attributes with
        | some v => upsertA attributes "Label" v
        | none => attributes
    | none => attributes
  upsertA attributes "node_type" node_type

/-- Declarative value of a column in a raw row: the value of the last
non-null occurrence of the column name, if any. -/
def row_value (k : String) : List (String × Option String) → Option String
  | [] => none
  | p :: ps =>
      match row_value k ps with
      | some v => some v
      | none => if p.1 = k then p.2 else none

/-- Edge classification of add_edges_to_graph (source lines 91-100), keyed on
the cursor columns to_node_type and from_node_type.  The stored graph edge
runs from the to-column npi to the from-column npi, so the category name reads
off the stored edge direction: a stored edge whose source tier is to_node_type
and target tier is from_node_type.  The fall-through category (the one the
spec calls unknown) is the string "None". -/
def classify_edge_type (to_node_type from_node_type : String) : String :=
  if to_node_type = "C" ∧ from_node_type = "C" then "core-to-core"
  else if to_node_type = "L" ∧ from_node_type = "C" then "leaf-to-core"
  else if to_node_type = "C" ∧ from_node_type = "L" then "core-to-leaf"
  else if to_node_type = "L" ∧ from_node_type = "L" then "leaf-to-leaf"
  else "None"

/-- Per-category tally of add_edges_to_graph (source lines 102-105): an
already-seen category is incremented, a first occurrence is set to zero. -/
def update_counter : List (String × Nat) → String → List (String × Nat)
  | [], k => [(k, 0)]
  | p :: ps, k => if p.1 = k then (p.1, p.2 + 1) :: ps else p :: update_counter ps k

/-- The in-memory graph: node list with attributes, and adjacency list with
(target, weight, edge_type) successor data. -/
structure PGraph where
  nodes : List (String × AttrMap)
  adj : List (String × List (String × Nat × String))
deriving DecidableEq

/-- Membership of a node id in the graph. -/
def has_node (g : PGraph) (n : String) : Bool := (lookupA n g.adj).isSome

/-- networkx add_node: register a new node with its attribute dictionary, or
overwrite the attributes of an existing one (unreached in this pipeline,
whose two node-insertion phases are disjoint). -/
def graph_add_node (g : PGraph) (n : String) (attributes : AttrMap) : PGraph :=
  if has_node g n then { g with nodes := upsertA g.nodes n attributes }
  else { nodes := g.nodes ++ [(n, attributes)], adj := g.adj ++ [(n, [])] }

/-- networkx DiGraph add_edge: auto-insert missing endpoints with empty
attributes, then set the (u, v) edge data, overwriting an existing edge. -/
def graph_add_edge (g : PGraph) (u v : String) (w : Nat) (t : String) : PGraph :=
  let g := if has_node g u then g else { nodes := g.nodes ++ [(u, [])], adj := g.adj ++ [(u, [])] }
  let g := if has_node g v then g else { nodes := g.nodes ++ [(v, [])], adj := g.adj ++ [(v, [])] }
  { g with adj := g.adj.map (fun p => if p.1 = u then (p.1, upsertA p.2 v (w, t)) else p) }

/-- A row of the edge queries (source lines 203-213 and 225-231): the
to-column npi, the from-column npi, the weight, and the two staged tiers. -/
structure EdgeRow where
  eto : String
  efrom : String
  eweight : Nat
  to_node_type : String
  from_node_type : String
deriving DecidableEq

/-- The categories assigned to a sequence of edge rows, in order. -/
def edge_types_of (rows : List EdgeRow) : List String :=
  rows.map (fun e => classify_edge_type e.to_node_type e.from_node_type)

/-- Loop of add_edges_to_graph (source lines 90-108): classify each row,
update the per-category tally, and insert the edge as (to-npi, from-npi). -/
def add_edges_to_graph_loop : List EdgeRow → PGraph → List (String × Nat) → PGraph × List (String × Nat)
  | [], g, counter_dict => (g, counter_dict)
  | e :: rest, g, counter_dict =>
      let edge_type := classify_edge_type e.to_node_type e.from_node_type
      let counter_dict := update_counter counter_dict edge_type
      let g := graph_add_edge g e.eto e.efrom e.eweight edge_type
      add_edges_to_graph_loop rest g counter_dict

/-- add_edges_to_graph (source lines 85-113): returns the grown graph and the
per-category counter dictionary of this import pass. -/
def add_edges_to_graph (rows : List EdgeRow) (g : PGraph) : PGraph × List (String × Nat) :=
  add_edges_to_graph_loop rows g []

/-- add_nodes_to_graph (source lines 67-82): insert one node per hydrated
cursor row, keyed by its npi, with normalized attributes. -/
def add_nodes_to_graph (rows : List (String × List (String × Option String))) (g : PGraph)
    (node_type : String) (label_name : Option String) : PGraph :=
  match rows with
  | [] => g
  | r :: rest =>
      add_nodes_to_graph rest
        (graph_add_node g r.1 (add_node_attributes r.2 node_type label_name)) node_type label_name

/-- A row of the referral table: from-npi, to-npi, weight. -/
structure ReferralRow where
  rfrom : String
  rto : String
  rweight : Nat
deriving DecidableEq

/-- A row of the npi detail table: the unique identifier plus the remaining
descriptive columns. -/
structure DetailRow where
  npi : String
  cols : List (String × Option String)
deriving DecidableEq

/-- Core node resolution (source lines 151-153): detail npis satisfying the
predicate that appear on the from side or the to side of some referral,
deduplicated by the SQL distinct/union. -/
def core_ids (referral : List ReferralRow) (detail : List DetailRow)
    (pred : DetailRow → Bool) : List String :=
  let part1 := (detail.filter pred).filterMap
    (fun d => if referral.any (fun r => decide (r.rfrom = d.npi)) then some d.npi else none)
  let part2 := (detail.filter pred).filterMap
    (fun d => if referral.any (fun r => decide (r.rto = d.npi)) then some d.npi else none)
  (part1 ++ part2).dedup

/-- Whether an npi is present in the staging table. -/
def staged (staging : List (String × String)) (n : String) : Bool :=
  (lookupA n staging).isSome

/-- Leaf candidates (source lines 180-185, inner union): npis one directed
referral hop away from a staged npi, in either direction. -/
def leaf_candidates (referral : List ReferralRow) (staging : List (String × String)) : List String :=
  let part1 := referral.filterMap (fun r => if staged staging r.rto then some r.rfrom else none)
  let part2 := referral.filterMap (fun r => if staged staging r.rfrom then some r.rto else none)
  (part1 ++ part2).dedup

/-- Leaf node resolution (source lines 180-185): the leaf candidates not
already staged (the where npi not in clause). -/
def leaf_ids (referral : List ReferralRow) (staging : List (String × String)) : List String :=
  (leaf_candidates referral staging).filter (fun n => ! staged staging n)

/-- Hydration join (source lines 161 and 194-195): staging rows joined back
to the detail table; the cursor row is the staging columns (npi, node_type)
followed by all detail columns, and node.npi resolves to the staged npi. -/
def hydrate_staging (staging : List (String × String)) (detail : List DetailRow) :
    List (String × List (String × Option String)) :=
  joinMap (fun p =>
      (detail.filter (fun d => decide (d.npi = p.1))).map
        (fun d => (p.1, [("npi", some p.1), ("node_type", some p.2), ("npi", some d.npi)] ++ d.cols)))
    staging

/-- Core-involving edge rows (source lines 203-219): referrals whose both
endpoints are staged and whose to endpoint (first part) or from endpoint
(second part) is core, deduplicated by the SQL union. -/
def core_edge_rows (referral : List ReferralRow) (staging : List (String × String)) : List EdgeRow :=
  let q1 := referral.filterMap (fun r =>
    match lookupA r.rto staging, lookupA r.rfrom staging with
    | some tt, some ft => if tt = "C" then some ⟨r.rto, r.rfrom, r.rweight, tt, ft⟩ else none
    | _, _ => none)
  let q2 := referral.filterMap (fun r =>
    match lookupA r.rto staging, lookupA r.rfrom staging with
    | some tt, some ft => if ft = "C" then some ⟨r.rto, r.rfrom, r.rweight, tt, ft⟩ else none
    | _, _ => none)
  (q1 ++ q2).dedup

/-- Leaf-to-leaf edge rows (source lines 225-231): referrals whose both
endpoints are staged as leaves. -/
def leaf_to_leaf_edge_rows (referral : List ReferralRow) (staging : List (String × String)) : List EdgeRow :=
  referral.filterMap (fun r =>
    match lookupA r.rto staging, lookupA r.rfrom staging with
    | some tt, some ft => if tt = "L" ∧ ft = "L" then some ⟨r.rto, r.rfrom, r.rweight, tt, ft⟩ else none
    | _, _ => none)

/-- extract_provider_network (source lines 116-242), as a pure function of
the relational inputs.  An unrecognized graph_type leaves ProviderGraph
unbound and the first node-adding step raises, modelled as an error result. -/
def extract_provider_network (referral : List ReferralRow) (detail : List DetailRow)
    (where_criteria : DetailRow → Bool) (add_leaf_to_leaf_edges : Bool)
    (node_label_name : Option String) (add_leaf_nodes : Bool) (graph_type : String) :
    Except String PGraph :=
  let core := core_ids referral detail where_criteria
  let staging1 := core.map (fun n => (n, "C"))
  let core_rows := hydrate_staging staging1 detail
  if graph_type = "directed" ∨ graph_type = "undirected" then
    let g : PGraph := ⟨[], []⟩
    let g := add_nodes_to_graph core_rows g "core" node_label_name
    let staging2 :=
      if add_leaf_nodes then staging1 ++ (leaf_ids referral staging1).map (fun n => (n, "L"))
      else staging1
    let g :=
      if add_leaf_nodes then
        add_nodes_to_graph (hydrate_staging (staging2.filter (fun p => decide (p.2 = "L"))) detail)
          g "leaf" node_label_name
      else g
    let g := (add_edges_to_graph (core_edge_rows referral staging2) g).1
    let g :=
      if add_leaf_to_leaf_edges then
        (add_edges_to_graph (leaf_to_leaf_edge_rows referral staging2) g).1
      else g
    Except.ok g
  else
    Except.error "NameError: name ProviderGraph is not defined"

/-- Edge CSV writer (source lines 248-255): iterate the adjacency keys, look
the successor dictionary up again, and write (from, to, weight) rows. -/
def write_edge_csv (g : PGraph) : List (String × String × Nat) :=
  joinMap (fun u =>
      match lookupA u g.adj with
      | some succ =>
          (succ.map Prod.fst).filterMap (fun v =>
            match lookupA v succ with
            | some d => some (u, v, d.1)
            | none => none)
      | none => [])
    (g.adj.map Prod.fst)

/-- Lexicographic code-point comparison of character lists, the order that
the Python list sort applies to strings. -/
def chars_le : List Char → List Char → Bool
  | [], _ => true
  | _ :: _, [] => false
  | a :: as, b :: bs => if a = b then chars_le as bs else decide (a < b)

/-- Lexicographic comparison of strings. -/
def str_le (a b : String) : Bool := chars_le a.data b.data

/-- Ascending lexicographic sort of attribute names (header.sort in source
line 268). -/
def sort_strings (l : List String) : List String :=
  List.insertionSort (fun a b => str_le a b = true) l

/-- Loop of the node CSV writer (source lines 263-283): the header is
computed from the first node only and then reused, and every data row lists
the node id followed by one value per header column (including the node_id
header column itself, looked up like any attribute). -/
def write_node_csv_loop : List (String × AttrMap) → Nat → List String → List (List String)
  | [], _, _ => []
  | (n, node_dict) :: rest, i, header0 =>
      let header := if i = 0 then "node_id" :: sort_strings (node_dict.map Prod.fst) else header0
      let header_rows : List (List String) := if i = 0 then [header] else []
      let row := n :: header.map (fun a =>
        match lookupA a node_dict with
        | some v => v
        | none => "")
      header_rows ++ [row] ++ write_node_csv_loop rest (i + 1) header

/-- Node CSV writer (source lines 260-283). -/
def write_node_csv (g : PGraph) : List (List String) :=
  write_node_csv_loop g.nodes 0 []

/-- Outcome of the command-line dispatch (source lines 286-306). -/
inductive MainResult where
  | usage : MainResult
  | run (where_criteria file_name_pref : String) (add_leaf_nodes add_leaf_to_leaf_edges : Bool) : MainResult
  | indexError : MainResult
deriving DecidableEq

/-- Command-line dispatch (source lines 286-306): argv includes the script
name; one entry prints usage, three entries run with defaults, otherwise the
trailing entries are scanned for the no-leaf-nodes and leaf-edges flags, and
a missing positional argument raises an IndexError. -/
def main_dispatch (argv : List String) : MainResult :=
  if argv.length = 1 then MainResult.usage
  else if argv.length = 3 then
    match argv.get? 1, argv.get? 2 with
    | some a1, some a2 => MainResult.run a1 a2 true false
    | _, _ => MainResult.indexError
  else
    match argv.get? 1, argv.get? 2 with
    | some a1, some a2 =>
        let rest := argv.drop 3
        MainResult.run a1 a2 (! rest.contains "no-leaf-nodes") (rest.contains "leaf-edges")
    | _, _ => MainResult.indexError

/-- Whether a dispatch outcome actually runs the extraction. -/
def is_run_result : MainResult → Bool
  | MainResult.run _ _ _ _ => true
  | _ => false

/-- Referral table of the spec scenario: A to B weight 5, B to A weight 3,
B to C weight 1. -/
def scn_referral : List ReferralRow := [⟨"A", "B", 5⟩, ⟨"B", "A", 3⟩, ⟨"B", "C", 1⟩]

/-- Detail table of the spec scenario. -/
def scn_detail : List DetailRow :=
  [⟨"A", [("provider_name", some "Alice Clinic")]⟩,
   ⟨"B", [("provider_name", some "Bob Clinic")]⟩,
   ⟨"C", [("provider_name", some "Carol Clinic")]⟩]

/-- Selection predicate of the spec scenario: selects exactly entity A. -/
def scn_pred (d : DetailRow) : Bool := decide (d.npi = "A")

/-- The scenario run, with leaf nodes enabled and the given leaf-to-leaf edge
setting. -/
def scn_run (leaf_edges : Bool) : PGraph :=
  match extract_provider_network scn_referral scn_detail scn_pred leaf_edges
      (some "provider_name") true "directed" with
  | Except.ok g => g
  | Except.error _ => ⟨[], []⟩

/-- Data of a directed edge of the graph, if present. -/
def edge_data (g : PGraph) (u v : String) : Option (Nat × String) :=
  match lookupA u g.adj with
  | some succ => lookupA v succ
  | none => none

/-! ## Association-list lemmas -/

theorem lookupA_upsertA_self {α : Type} (l : List (String × α)) (k : String) (v : α) :
    lookupA k (upsertA l k v) = some v := by
  induction l with
  | nil => simp [upsertA, lookupA]
  | cons p ps ih =>
      by_cases h : p.1 = k
      · simp [upsertA, h, lookupA]
      · simp [upsertA, h, lookupA, ih]

theorem lookupA_upsertA_ne {α : Type} (l : List (String × α)) (k k' : String) (v : α)
    (h : k' ≠ k) : lookupA k' (upsertA l k v) = lookupA k' l := by
  have hk : ¬ k = k' := fun hh => h hh.symm
  induction l with
  | nil => simp [upsertA, lookupA, hk]
  | cons p ps ih =>
      by_cases hp : p.1 = k
      · have hp' : ¬ p.1 = k' := by rw [hp]; exact hk
        simp [upsertA, hp, lookupA, hp', hk]
      · simp only [upsertA, hp, if_false, lookupA]
        by_cases hk' : p.1 = k'
        · simp [hk']
        · simp [hk', ih]

theorem lookupA_row_to_dictionary_loop (cols : List (String × Option String)) (d : AttrMap)
    (k : String) :
    lookupA k (row_to_dictionary_loop d cols) =
      match row_value k cols with
      | some v => some v
      | none => lookupA k d := by
  induction cols generalizing d with
  | nil => simp [row_to_dictionary_loop, row_value]
  | cons p ps ih =>
      cases hp : p.2 with
      | some v =>
          rw [row_to_dictionary_loop, hp, ih]
          cases hps : row_value k ps with
          | some w => simp [row_value, hps]
          | none =>
              by_cases hk : p.1 = k
              · subst hk
                simp [row_value, hps, hp, lookupA_upsertA_self]
              · simp [row_value, hps, hk, lookupA_upsertA_ne _ _ _ _ (fun hh => hk hh.symm)]
      | none =>
          rw [row_to_dictionary_loop, hp, ih]
          cases hps : row_value k ps with
          | some w => simp [row_value, hps]
          | none =>
              by_cases hk : p.1 = k <;> simp [row_value, hps, hk, hp]

theorem lookupA_row_to_dictionary (cols : List (String × Option String)) (k : String) :
    lookupA k (row_to_dictionary cols) = row_value k cols := by
  rw [row_to_dictionary, lookupA_row_to_dictionary_loop]
  cases row_value k cols <;> simp [lookupA]

/-! ## C2: the edge classifier -/

/-- Claim C2: edge classification is a deterministic total function of the
two staged tiers (it is a Lean function, hence total and deterministic); the
four combinations of core and leaf tiers yield the four named categories, and
any pair containing an unrecognized tier value yields the fall-through
category, which the spec names unknown and the code spells "None".  Read off
the stored graph edge (which runs to-npi to from-npi), the first argument is
the stored edge's source tier and the second its target tier, so each name
lists source tier then target tier. -/
theorem classify_edge_total_function (a b : String) :
    classify_edge_type "C" "C" = "core-to-core"
    ∧ classify_edge_type "L" "C" = "leaf-to-core"
    ∧ classify_edge_type "C" "L" = "core-to-leaf"
    ∧ classify_edge_type "L" "L" = "leaf-to-leaf"
    ∧ ((¬ (a = "C" ∨ a = "L") ∨ ¬ (b = "C" ∨ b = "L")) → classify_edge_type a b = "None") := by
  refine ⟨rfl, rfl, rfl, rfl, ?_⟩
  intro h
  rcases h with h | h <;> push_neg at h <;> simp [classify_edge_type, h.1, h.2]

/-- Claim C2 witness: an unrecognized tier value is classified "None". -/
theorem classify_edge_total_function_witness : classify_edge_type "X" "C" = "None" :=
  (classify_edge_total_function "X" "C").2.2.2.2 (Or.inl (by decide))

/-! ## C3: record normalization -/

/-- Claim C3: normalization is total (no error case) and the resulting
mapping holds exactly the row's non-null columns keyed by column name, plus a
synthetic Label equal to the label column's value when the label field is
given and present among the non-null columns, plus node_type equal to the
given tier; the synthetic Label and node_type assignments override same-named
row columns, and absent or null fields are silently omitted. -/
theorem normalize_row_characterization (cols : List (String × Option String))
    (node_type : String) (label_name : Option String) :
    (lookupA "node_type" (add_node_attributes cols node_type label_name) = some node_type)
    ∧ (∀ k : String, k ≠ "node_type" → k ≠ "Label" →
        lookupA k (add_node_attributes cols node_type label_name) = row_value k cols)
    ∧ (∀ lf v, label_name = some lf → row_value lf cols = some v →
        lookupA "Label" (add_node_attributes cols node_type label_name) = some v)
    ∧ (∀ k : String,
        (lookupA k (add_node_attributes cols node_type label_name)).isSome ↔
          ((row_value k cols).isSome ∨ k = "node_type"
            ∨ (k = "Label" ∧ ∃ lf, label_name = some lf ∧ (row_value lf cols).isSome))) := by
  refine ⟨?_, ?_, ?_, ?_⟩
  · exact lookupA_upsertA_self _ _ _
  · intro k hk1 hk2
    cases label_name with
    | none =>
        simp only [add_node_attributes]
        rw [lookupA_upsertA_ne _ _ _ _ hk1]
        exact lookupA_row_to_dictionary cols k
    | some ln =>
        simp only [add_node_attributes]
        rw [lookupA_upsertA_ne _ _ _ _ hk1]
        cases hln : lookupA ln (row_to_dictionary cols) with
        | none =>
            simp only [hln]
            exact lookupA_row_to_dictionary cols k
        | some v =>
            simp only [hln]
            rw [lookupA_upsertA_ne _ _ _ _ hk2]
            exact lookupA_row_to_dictionary cols k
  · intro lf v hlf hv
    subst hlf
    have hln : lookupA lf (row_to_dictionary cols) = some v := by
      rw [lookupA_row_to_dictionary]; exact hv
    simp only [add_node_attributes, hln]
    rw [lookupA_upsertA_ne _ _ _ _ (by decide : ("Label" : String) ≠ "node_type")]
    exact lookupA_upsertA_self _ _ _
  · intro k
    by_cases hk1 : k = "node_type"
    · subst hk1
      have h1 : lookupA "node_type" (add_node_attributes cols node_type label_name) = some node_type :=
        lookupA_upsertA_self _ _ _
      simp [h1]
    · by_cases hk2 : k = "Label"
      · subst hk2
        cases label_name with
        | none =>
            simp only [add_node_attributes]
            rw [lookupA_upsertA_ne _ _ _ _ hk1, lookupA_row_to_dictionary]
            simp [hk1]
        | some ln =>
            simp only [add_node_attributes]
            rw [lookupA_upsertA_ne _ _ _ _ hk1]
            cases hln : lookupA ln (row_to_dictionary cols) with
            | none =>
                simp only [hln]
                rw [lookupA_row_to_dictionary]
                rw [lookupA_row_to_dictionary] at hln
                simp [hk1, hln]
            | some v =>
                simp only [hln]
                rw [lookupA_upsertA_self]
                rw [lookupA_row_to_dictionary] at hln
                simp only [Option.isSome_some, true_iff]
                exact Or.inr (Or.inr ⟨by trivial, ln, rfl, by rw [hln]; rfl⟩)
      · cases label_name with
        | none =>
            simp only [add_node_attributes]
            rw [lookupA_upsertA_ne _ _ _ _ hk1, lookupA_row_to_dictionary]
            simp [hk1, hk2]
        | some ln =>
            simp only [add_node_attributes]
            rw [lookupA_upsertA_ne _ _ _ _ hk1]
            cases hln : lookupA ln (row_to_dictionary cols) with
            | none =>
                simp only [hln]
                rw [lookupA_row_to_dictionary]
                simp [hk1, hk2]
            | some v =>
                simp only [hln]
                rw [lookupA_upsertA_ne _ _ _ _ hk2, lookupA_row_to_dictionary]
                simp [hk1, hk2]

/-- Claim C3 witness: on a concrete row with a null column, the null column
is omitted, node_type is the tier, and Label copies the label column. -/
theorem normalize_row_characterization_witness :
    lookupA "node_type" (add_node_attributes [("provider_name", some "Alice"), ("zip", none)]
        "core" (some "provider_name")) = some "core"
    ∧ lookupA "zip" (add_node_attributes [("provider_name", some "Alice"), ("zip", none)]
        "core" (some "provider_name")) = none
    ∧ lookupA "Label" (add_node_attributes [("provider_name", some "Alice"), ("zip", none)]
        "core" (some "provider_name")) = some "Alice" := by
  refine ⟨(normalize_row_characterization _ _ _).1, ?_, ?_⟩
  · exact ((normalize_row_characterization _ _ _).2.1 "zip" (by decide) (by decide)).trans (by decide)
  · exact (normalize_row_characterization _ _ _).2.2.1 "provider_name" "Alice" rfl (by decide)

/-! ## C4: the per-category counter -/

theorem lookupA_update_counter_self (cd : List (String × Nat)) (k : String) :
    lookupA k (update_counter cd k) =
      match lookupA k cd with
      | some n => some (n + 1)
      | none => some 0 := by
  induction cd with
  | nil => simp [update_counter, lookupA]
  | cons p ps ih =>
      by_cases h : p.1 = k
      · simp [update_counter, h, lookupA]
      · simp [update_counter, h, lookupA, ih]

theorem lookupA_update_counter_ne (cd : List (String × Nat)) (a k : String) (h : ¬ a = k) :
    lookupA k (update_counter cd a) = lookupA k cd := by
  induction cd with
  | nil => simp [update_counter, lookupA, h]
  | cons p ps ih =>
      by_cases hp : p.1 = a
      · have hp' : ¬ p.1 = k := by rw [hp]; exact h
        simp [update_counter, hp, lookupA, hp', h]
      · simp only [update_counter, hp, if_false, lookupA]
        by_cases hk : p.1 = k
        · simp [hk]
        · simp [hk, ih]

theorem counter_fold (cats : List String) (cd : List (String × Nat)) (c : String) :
    lookupA c (cats.foldl update_counter cd) =
      match lookupA c cd with
      | some n => some (n + countS c cats)
      | none => if c ∈ cats then some (countS c cats - 1) else none := by
  induction cats generalizing cd with
  | nil =>
      simp only [List.foldl_nil, countS]
      cases h : lookupA c cd <;> simp [h]
  | cons a cats ih =>
      rw [List.foldl_cons, ih]
      by_cases ha : a = c
      · subst ha
        rw [lookupA_update_counter_self]
        have h1 : countS a (a :: cats) = 1 + countS a cats := by simp [countS]
        have hmem : a ∈ a :: cats := List.mem_cons_self a cats
        cases hcd : lookupA a cd with
        | some n =>
            simp only [hcd, h1, Option.some.injEq]
            omega
        | none =>
            simp only [hcd, h1, hmem, if_true, Option.some.injEq]
            omega
      · have hca : ¬ c = a := fun hh => ha hh.symm
        rw [lookupA_update_counter_ne _ _ _ ha]
        have h1 : countS c (a :: cats) = countS c cats := by simp [countS, ha]
        have h2 : (c ∈ a :: cats) ↔ (c ∈ cats) := by simp [List.mem_cons, hca]
        simp only [h1, h2]

theorem add_edges_counter_eq (rows : List EdgeRow) (g : PGraph) (cd : List (String × Nat)) :
    (add_edges_to_graph_loop rows g cd).2 = (edge_types_of rows).foldl update_counter cd := by
  induction rows generalizing g cd with
  | nil => rfl
  | cons e rest ih => simp [add_edges_to_graph_loop, edge_types_of, ih, List.foldl_cons]

/-- Claim C4: in one edge-import pass the per-category running count is
initialized to zero on a category's first occurrence without incrementing, so
the count reported at the end for each category that occurs at least once
equals its number of occurrences minus one. -/
theorem edge_counter_off_by_one (rows : List EdgeRow) (g : PGraph) (c : String)
    (h : c ∈ edge_types_of rows) :
    lookupA c (add_edges_to_graph rows g).2 = some (countS c (edge_types_of rows) - 1) := by
  rw [add_edges_to_graph, add_edges_counter_eq, counter_fold]
  simp [lookupA, h]

/-- Claim C4 witness: a category seen twice is reported with count one, and a
category seen once with count zero. -/
theorem edge_counter_off_by_one_witness :
    lookupA "core-to-core"
      (add_edges_to_graph [⟨"A", "B", 1, "C", "C"⟩, ⟨"C", "D", 2, "L", "L"⟩, ⟨"B", "A", 3, "C", "C"⟩]
        ⟨[], []⟩).2 = some 1 :=
  (edge_counter_off_by_one
      [⟨"A", "B", 1, "C", "C"⟩, ⟨"C", "D", 2, "L", "L"⟩, ⟨"B", "A", 3, "C", "C"⟩]
      ⟨[], []⟩ "core-to-core" (by decide)).trans (by decide)

/-! ## C5: core/leaf exclusivity -/

theorem staged_map_const (l : List String) (c x : String) :
    staged (l.map (fun n => (n, c))) x = true ↔ x ∈ l := by
  induction l with
  | nil => simp [staged, lookupA]
  | cons a t ih =>
      simp only [staged] at ih ⊢
      by_cases h : a = x
      · simp [lookupA, h]
      · have hx : ¬ x = a := fun hh => h hh.symm
        simp [lookupA, h, hx, ih]

/-- The staging table after both insertion phases of a run with leaf nodes
enabled: the core identifiers tagged C, then the leaf identifiers tagged L
(source lines 151-156 and 180-188). -/
def staging_after_leaf_phase (referral : List ReferralRow) (detail : List DetailRow)
    (pred : DetailRow → Bool) : List (String × String) :=
  let staging1 := (core_ids referral detail pred).map (fun n => (n, "C"))
  staging1 ++ (leaf_ids referral staging1).map (fun n => (n, "L"))

/-- Claim C5: every staged entity has tier C or L, the leaf-set computation
excludes every identifier already staged as core, and no identifier appears
twice across the staged core and leaf sets. -/
theorem core_leaf_tiers_disjoint (referral : List ReferralRow) (detail : List DetailRow)
    (pred : DetailRow → Bool) :
    (∀ x ∈ leaf_ids referral ((core_ids referral detail pred).map (fun n => (n, "C"))),
        x ∉ core_ids referral detail pred)
    ∧ ((staging_after_leaf_phase referral detail pred).map Prod.fst).Nodup
    ∧ (∀ p ∈ staging_after_leaf_phase referral detail pred, p.2 = "C" ∨ p.2 = "L") := by
  have hdisj : ∀ x ∈ leaf_ids referral ((core_ids referral detail pred).map (fun n => (n, "C"))),
      x ∉ core_ids referral detail pred := by
    intro x hx hxc
    rw [leaf_ids, List.mem_filter] at hx
    have hst : staged ((core_ids referral detail pred).map (fun n => (n, "C"))) x = true :=
      (staged_map_const _ _ _).mpr hxc
    rw [hst] at hx
    simp at hx
  refine ⟨hdisj, ?_, ?_⟩
  · simp only [staging_after_leaf_phase, List.map_append, List.map_map]
    have hfst : ∀ (l : List String) (c : String), l.map (Prod.fst ∘ fun n => (n, c)) = l := by
      intro l c
      induction l with
      | nil => rfl
      | cons a t ih => simp [ih]
    rw [hfst, hfst, List.nodup_append]
    refine ⟨?_, ?_, ?_⟩
    · simp only [core_ids]
      exact List.nodup_dedup _
    · simp only [leaf_ids, leaf_candidates]
      exact (List.nodup_dedup _).filter _
    · intro a ha hal
      exact hdisj a hal ha
  · intro p hp
    simp only [staging_after_leaf_phase, List.mem_append, List.mem_map] at hp
    rcases hp with ⟨n, hn, rfl⟩ | ⟨n, hn, rfl⟩
    · exact Or.inl rfl
    · exact Or.inr rfl

/-- Claim C5 witness: in the scenario run, B is resolved as a leaf and is
therefore not in the core set. -/
theorem core_leaf_tiers_disjoint_witness :
    "B" ∉ core_ids scn_referral scn_detail scn_pred :=
  (core_leaf_tiers_disjoint scn_referral scn_detail scn_pred).1 "B" (by decide)

/-! ## C6: empty selection -/

theorem filter_false_eq_nil {α : Type} (l : List α) (p : α → Bool)
    (h : ∀ a ∈ l, p a = false) : l.filter p = [] := by
  induction l with
  | nil => rfl
  | cons a t ih =>
      simp [List.filter_cons, h a (List.mem_cons_self a t),
        ih (fun b hb => h b (List.mem_cons_of_mem a hb))]

theorem filterMap_none_eq_nil {α β : Type} (l : List α) (f : α → Option β)
    (h : ∀ a ∈ l, f a = none) : l.filterMap f = [] := by
  induction l with
  | nil => rfl
  | cons a t ih =>
      simp [List.filterMap_cons, h a (List.mem_cons_self a t),
        ih (fun b hb => h b (List.mem_cons_of_mem a hb))]

theorem core_ids_of_no_match (referral : List ReferralRow) (detail : List DetailRow)
    (pred : DetailRow → Bool) (h : ∀ d ∈ detail, pred d = false) :
    core_ids referral detail pred = [] := by
  have hf : detail.filter pred = [] := filter_false_eq_nil _ _ h
  simp [core_ids, hf]

theorem leaf_candidates_nil_staging (referral : List ReferralRow) :
    leaf_candidates referral [] = [] := by
  simp only [leaf_candidates, List.dedup_eq_nil, List.append_eq_nil, List.filterMap_eq_nil_iff]
  exact ⟨fun r _ => rfl, fun r _ => rfl⟩

theorem leaf_ids_nil_staging (referral : List ReferralRow) :
    leaf_ids referral [] = [] := by
  rw [leaf_ids, leaf_candidates_nil_staging]
  rfl

theorem core_edge_rows_nil_staging (referral : List ReferralRow) :
    core_edge_rows referral [] = [] := by
  simp only [core_edge_rows, List.dedup_eq_nil, List.append_eq_nil, List.filterMap_eq_nil_iff]
  exact ⟨fun r _ => rfl, fun r _ => rfl⟩

theorem leaf_to_leaf_edge_rows_nil_staging (referral : List ReferralRow) :
    leaf_to_leaf_edge_rows referral [] = [] := by
  simp only [leaf_to_leaf_edge_rows, List.filterMap_eq_nil_iff]
  exact fun r _ => rfl

/-- Claim C6: a selection predicate matching zero detail rows yields an empty
core set, an empty leaf set (even when leaf inclusion is enabled), zero edges,
and a successful run producing a valid empty graph with empty CSV exports. -/
theorem empty_predicate_yields_empty_graph (referral : List ReferralRow) (detail : List DetailRow)
    (pred : DetailRow → Bool) (h : ∀ d ∈ detail, pred d = false)
    (add_leaf_to_leaf_edges add_leaf_nodes : Bool) (node_label_name : Option String) :
    core_ids referral detail pred = []
    ∧ leaf_ids referral [] = []
    ∧ extract_provider_network referral detail pred add_leaf_to_leaf_edges node_label_name
        add_leaf_nodes "directed" = Except.ok ⟨[], []⟩
    ∧ write_edge_csv ⟨[], []⟩ = []
    ∧ write_node_csv ⟨[], []⟩ = [] := by
  have hc := core_ids_of_no_match referral detail pred h
  refine ⟨hc, leaf_ids_nil_staging referral, ?_, rfl, rfl⟩
  simp [extract_provider_network, hc, hydrate_staging, joinMap, add_nodes_to_graph,
    leaf_ids_nil_staging, core_edge_rows_nil_staging, leaf_to_leaf_edge_rows_nil_staging,
    add_edges_to_graph, add_edges_to_graph_loop]

/-- Claim C6 witness: on the scenario tables with an all-false predicate the
run succeeds with an empty graph. -/
theorem empty_predicate_yields_empty_graph_witness :
    extract_provider_network scn_referral scn_detail (fun _ => false) false (some "provider_name")
      true "directed" = Except.ok ⟨[], []⟩ :=
  (empty_predicate_yields_empty_graph scn_referral scn_detail (fun _ => false)
      (fun _ _ => rfl) false true (some "provider_name")).2.2.1

theorem chars_le_total (as : List Char) : ∀ bs, chars_le as bs = true ∨ chars_le bs as = true := by
  induction as with
  | nil => exact fun bs => Or.inl rfl
  | cons a as ih =>
      intro bs
      cases bs with
      | nil => exact Or.inr rfl
      | cons b bs =>
          by_cases hab : a = b
          · subst hab
            simpa [chars_le] using ih bs
          · have hba : ¬ b = a := fun h => hab h.symm
            rcases lt_trichotomy a b with h | h | h
            · exact Or.inl (by simp [chars_le, hab, h])
            · exact absurd h hab
            · exact Or.inr (by simp [chars_le, hba, h])

theorem chars_le_trans : ∀ (as bs cs : List Char), chars_le as bs = true →
    chars_le bs cs = true → chars_le as cs = true
  | [], _, _, _, _ => rfl
  | _ :: _, [], _, h1, _ => by simp [chars_le] at h1
  | _ :: _, _ :: _, [], _, h2 => by simp [chars_le] at h2
  | a :: as, b :: bs, c :: cs, h1, h2 => by
      simp only [chars_le] at h1 h2 ⊢
      by_cases hab : a = b
      · subst hab
        rw [if_pos rfl] at h1
        by_cases hac : a = c
        · subst hac
          rw [if_pos rfl] at h2 ⊢
          exact chars_le_trans as bs cs h1 h2
        · rw [if_neg hac] at h2 ⊢
          exact h2
      · rw [if_neg hab] at h1
        have h1' : a < b := of_decide_eq_true h1
        by_cases hbc : b = c
        · subst hbc
          rw [if_neg hab]
          exact h1
        · rw [if_neg hbc] at h2
          have h2' : b < c := of_decide_eq_true h2
          have hac : a < c := lt_trans h1' h2'
          rw [if_neg (ne_of_lt hac)]
          exact decide_eq_true hac

instance : IsTotal String (fun a b => str_le a b = true) :=
  ⟨fun a b => chars_le_total a.data b.data⟩

instance : IsTrans String (fun a b => str_le a b = true) :=
  ⟨fun a b c h1 h2 => chars_le_trans a.data b.data c.data h1 h2⟩

/-! ## C7: the node CSV -/

theorem write_node_csv_loop_pos (nodes : List (String × AttrMap)) (i : Nat) (header : List String)
    (hi : i ≠ 0) :
    write_node_csv_loop nodes i header =
      nodes.map (fun n => n.1 :: header.map (fun a =>
        match lookupA a n.2 with
        | some v => v
        | none => "")) := by
  induction nodes generalizing i with
  | nil => simp [write_node_csv_loop]
  | cons n rest ih =>
      obtain ⟨nid, nd⟩ := n
      simp only [write_node_csv_loop, hi, if_false, ite_false, List.map_cons]
      rw [ih (i + 1) (by omega)]
      simp

/-- Claim C7: for every non-empty graph the node CSV has header row equal to
node_id followed by the sorted attribute names of the first enumerated node
only (sorted ascending, a permutation of that node's attribute names), then
one row per node in enumeration order giving the node id and then, for each
header column, that node's attribute value or the empty string when absent;
attributes of later nodes absent from the first node's attribute set appear
in no CSV column, since the header is never recomputed. -/
theorem node_csv_header_first_node (g : PGraph) (n0 : String × AttrMap)
    (rest : List (String × AttrMap)) (h : g.nodes = n0 :: rest) :
    write_node_csv g =
      ("node_id" :: sort_strings (n0.2.map Prod.fst)) ::
        (n0 :: rest).map (fun n => n.1 ::
          ("node_id" :: sort_strings (n0.2.map Prod.fst)).map (fun a =>
            match lookupA a n.2 with
            | some v => v
            | none => ""))
    ∧ List.Sorted (fun a b => str_le a b = true) (sort_strings (n0.2.map Prod.fst))
    ∧ List.Perm (sort_strings (n0.2.map Prod.fst)) (n0.2.map Prod.fst) := by
  refine ⟨?_, List.sorted_insertionSort _ _, List.perm_insertionSort _ _⟩
  rw [write_node_csv, h]
  obtain ⟨nid, nd⟩ := n0
  simp only [write_node_csv_loop, if_pos rfl, ite_true, List.map_cons]
  rw [write_node_csv_loop_pos rest 1 _ (by omega)]
  simp

/-- Claim C7 witness: on a concrete two-node graph the header comes from the
first node alone, every data row carries one entry per header column (the
node_id column looked up like an attribute, hence empty), and the second
node's extra attribute is dropped. -/
theorem node_csv_header_first_node_witness :
    write_node_csv ⟨[("A", [("b", "2"), ("a", "1")]), ("B", [("c", "3")])], []⟩ =
      [["node_id", "a", "b"], ["A", "", "1", "2"], ["B", "", "", ""]] :=
  ((node_csv_header_first_node ⟨[("A", [("b", "2"), ("a", "1")]), ("B", [("c", "3")])], []⟩
      ("A", [("b", "2"), ("a", "1")]) [("B", [("c", "3")])] rfl).1).trans (by decide)

/-! ## C8: the edge CSV -/

theorem lookupA_of_mem_nodup {α : Type} (l : List (String × α)) (p : String × α)
    (hn : (l.map Prod.fst).Nodup) (hp : p ∈ l) : lookupA p.1 l = some p.2 := by
  induction l with
  | nil => cases hp
  | cons q rest ih =>
      simp only [List.map_cons, List.nodup_cons] at hn
      rcases List.mem_cons.mp hp with rfl | hp'
      · simp [lookupA]
      · have hne : ¬ q.1 = p.1 := by
          intro hq
          exact hn.1 (hq ▸ List.mem_map_of_mem Prod.fst hp')
        simp only [lookupA, hne, if_false, ite_false]
        exact ih hn.2 hp'

theorem filterMap_lookup_succ (u : String) (succ full : List (String × Nat × String))
    (hf : ∀ q ∈ succ, lookupA q.1 full = some q.2) :
    (succ.map Prod.fst).filterMap (fun v =>
        match lookupA v full with
        | some d => some (u, v, d.1)
        | none => none) =
      succ.map (fun q => (u, q.1, q.2.1)) := by
  induction succ with
  | nil => rfl
  | cons q rest ih =>
      simp only [List.map_cons, List.filterMap_cons, hf q (List.mem_cons_self q rest)]
      rw [ih (fun r hr => hf r (List.mem_cons_of_mem q hr))]

/-- Claim C8: for a graph whose adjacency keys and successor keys are
duplicate-free (as every graph built by this pipeline is), the edge CSV is
exactly one row per directed edge of the graph, in enumeration order, each
row the triple (from id, to id, weight), with no header row. -/
theorem edge_csv_rows (g : PGraph)
    (h1 : (g.adj.map Prod.fst).Nodup)
    (h2 : ∀ p ∈ g.adj, (p.2.map Prod.fst).Nodup) :
    write_edge_csv g = joinMap (fun p => p.2.map (fun q => (p.1, q.1, q.2.1))) g.adj := by
  rw [write_edge_csv]
  have main : ∀ (l : List (String × List (String × Nat × String))),
      (∀ p ∈ l, lookupA p.1 g.adj = some p.2) →
      (∀ p ∈ l, (p.2.map Prod.fst).Nodup) →
      joinMap (fun u =>
          match lookupA u g.adj with
          | some succ =>
              (succ.map Prod.fst).filterMap (fun v =>
                match lookupA v succ with
                | some d => some (u, v, d.1)
                | none => none)
          | none => []) (l.map Prod.fst) =
        joinMap (fun p => p.2.map (fun q => (p.1, q.1, q.2.1))) l := by
    intro l hl hs
    induction l with
    | nil => rfl
    | cons p rest ih =>
        simp only [List.map_cons, joinMap, hl p (List.mem_cons_self p rest)]
        rw [filterMap_lookup_succ p.1 p.2 p.2
            (fun q hq => lookupA_of_mem_nodup p.2 q (hs p (List.mem_cons_self p rest)) hq)]
        rw [ih (fun q hq => hl q (List.mem_cons_of_mem p hq))
            (fun q hq => hs q (List.mem_cons_of_mem p hq))]
  exact main g.adj (fun p hp => lookupA_of_mem_nodup g.adj p h1 hp) h2

/-- Claim C8 witness: on a concrete graph the edge CSV lists each directed
edge once as (from, to, weight). -/
theorem edge_csv_rows_witness :
    write_edge_csv ⟨[("A", []), ("B", [])],
        [("A", [("B", 5, "core-to-leaf")]), ("B", [("A", 3, "leaf-to-core")])]⟩ =
      [("A", "B", 5), ("B", "A", 3)] :=
  (edge_csv_rows ⟨[("A", []), ("B", [])],
      [("A", [("B", 5, "core-to-leaf")]), ("B", [("A", 3, "leaf-to-core")])]⟩
      (by decide) (by decide)).trans (by decide)

/-! ## C1: the spec scenario -/

/-- Claim C1 counterexample: in the scenario run the assembled graph stores
each referral endpoint-reversed, so the (A, B) edge carries weight 3 (not 5,
as claimed) with category core-to-leaf, and the B-to-C referral never appears
in either direction, even when leaf-to-leaf edge export is enabled. -/
theorem scn_claimed_edges_false :
    edge_data (scn_run false) "A" "B" = some (3, "core-to-leaf")
    ∧ edge_data (scn_run false) "A" "B" ≠ some (5, "core-to-leaf")
    ∧ edge_data (scn_run true) "B" "C" = none
    ∧ edge_data (scn_run true) "C" "B" = none :=
  ⟨by decide, by decide, by decide, by decide⟩

/-- Claim C1 amended: with the scenario predicate and referral table and leaf
nodes enabled, the run resolves core set A and leaf set B (C excluded), and
the assembled graph contains exactly the edges (B, A) with weight 5 and
category leaf-to-core and (A, B) with weight 3 and category core-to-leaf
(each referral is stored endpoint-reversed); the B-to-C referral never
appears, whether or not leaf-to-leaf edge export is enabled, because C is not
a staged node. -/
theorem scn_graph_content (add_leaf_to_leaf_edges : Bool) :
    core_ids scn_referral scn_detail scn_pred = ["A"]
    ∧ leaf_ids scn_referral [("A", "C")] = ["B"]
    ∧ extract_provider_network scn_referral scn_detail scn_pred add_leaf_to_leaf_edges
        (some "provider_name") true "directed"
      = Except.ok
          ⟨[("A", [("npi", "A"), ("node_type", "core"), ("provider_name", "Alice Clinic"),
              ("Label", "Alice Clinic")]),
            ("B", [("npi", "B"), ("node_type", "leaf"), ("provider_name", "Bob Clinic"),
              ("Label", "Bob Clinic")])],
           [("A", [("B", 3, "core-to-leaf")]), ("B", [("A", 5, "leaf-to-core")])]⟩ := by
  cases add_leaf_to_leaf_edges <;> exact ⟨by decide, by decide, rfl⟩

/-! ## C9: the command-line surface -/

/-- Claim C9 counterexample: invocation with exactly one user argument does
not run with defaults; the dispatch accesses a missing positional argument
and fails with an index error. -/
theorem cli_single_arg_fails :
    main_dispatch ["extract_providers_to_graphml.py", "zip5 = 02535"] = MainResult.indexError
    ∧ is_run_result (main_dispatch ["extract_providers_to_graphml.py", "zip5 = 02535"]) = false :=
  ⟨by decide, by decide⟩

/-- Claim C9 amended: with no user arguments the dispatch prints usage and
performs no work; with exactly the predicate and prefix arguments it runs
with leaf inclusion enabled and leaf-to-leaf edges disabled; with exactly one
user argument it fails with an index error; and with three or more user
arguments it runs with leaf inclusion enabled and no leaf edges unless the
no-leaf-nodes or leaf-edges flags appear among the trailing arguments, which
respectively disable leaf inclusion and enable leaf-to-leaf edge export. -/
theorem cli_dispatch_behavior (prog a1 a2 : String) (rest : List String) :
    main_dispatch [prog] = MainResult.usage
    ∧ main_dispatch [prog, a1, a2] = MainResult.run a1 a2 true false
    ∧ main_dispatch [prog, a1] = MainResult.indexError
    ∧ (rest ≠ [] →
        main_dispatch (prog :: a1 :: a2 :: rest)
          = MainResult.run a1 a2 (! rest.contains "no-leaf-nodes") (rest.contains "leaf-edges")) := by
  refine ⟨rfl, rfl, rfl, ?_⟩
  intro hr
  have h1 : (prog :: a1 :: a2 :: rest).length ≠ 1 := by
    simp only [List.length_cons]
    omega
  have h3 : (prog :: a1 :: a2 :: rest).length ≠ 3 := by
    simp only [List.length_cons]
    intro hh
    have hz : rest.length = 0 := by omega
    exact hr (List.length_eq_zero.mp hz)
  simp only [main_dispatch]
  rw [if_neg h1, if_neg h3]
  rfl

/-- Claim C9 witness: a four-argument invocation with the leaf-edges flag
runs with leaf inclusion enabled and leaf-to-leaf edges enabled. -/
theorem cli_dispatch_behavior_witness :
    main_dispatch ["extract_providers_to_graphml.py", "zip5 = 02535", "mi_prov", "leaf-edges"]
      = MainResult.run "zip5 = 02535" "mi_prov" true true :=
  ((cli_dispatch_behavior "extract_providers_to_graphml.py" "zip5 = 02535" "mi_prov"
      ["leaf-edges"]).2.2.2 (by decide)).trans (by decide)

/-- Whether a run outcome is a success. -/
def except_is_ok {e a : Type} : Except e a → Bool
  | Except.ok _ => true
  | Except.error _ => false

/-! ## C10: graph-type binding -/

/-- Claim C10: when graph_type is directed or undirected a graph object is
bound before any node is added and the run succeeds with a graph; for any
other graph_type no graph is ever created and the first node-adding step
fails with an unbound-name error, so the precondition that graph_type is
directed or undirected makes that failure branch unreachable. -/
theorem graph_type_binding (referral : List ReferralRow) (detail : List DetailRow)
    (pred : DetailRow → Bool) (add_leaf_to_leaf_edges add_leaf_nodes : Bool)
    (node_label_name : Option String) (graph_type : String) :
    except_is_ok (extract_provider_network referral detail pred add_leaf_to_leaf_edges
        node_label_name add_leaf_nodes "directed") = true
    ∧ except_is_ok (extract_provider_network referral detail pred add_leaf_to_leaf_edges
        node_label_name add_leaf_nodes "undirected") = true
    ∧ (graph_type ≠ "directed" → graph_type ≠ "undirected" →
        extract_provider_network referral detail pred add_leaf_to_leaf_edges node_label_name
          add_leaf_nodes graph_type
          = Except.error "NameError: name ProviderGraph is not defined") := by
  refine ⟨?_, ?_, ?_⟩
  · simp [extract_provider_network, except_is_ok]
  · simp [extract_provider_network, except_is_ok]
  · intro h1 h2
    simp [extract_provider_network, h1, h2]

/-- Claim C10 witness: an unrecognized graph type fails on the scenario
inputs with the unbound-name error. -/
theorem graph_type_binding_witness :
    extract_provider_network scn_referral scn_detail scn_pred false (some "provider_name") true
      "mixed" = Except.error "NameError: name ProviderGraph is not defined" :=
  (graph_type_binding scn_referral scn_detail scn_pred false true (some "provider_name")
      "mixed").2.2 (by decide) (by decide)
